import Mathlib

/-!
Shallow embedding of `lib/trainer.py` from the lepard-multi repository.

The trainer drives a training / evaluation loop over batches.  We model the
observable behaviour of `Trainer.inference_one_epoch`, `Trainer.train`,
`Trainer._snapshot` and `Trainer._load_pretrain` as pure Lean functions.
Scalar values (losses, averages, RMSE values) are modelled as rationals;
Python exceptions (KeyError, ZeroDivisionError, AttributeError on `None`)
are modelled with `Except`.  Side effects (optimizer calls, log writes,
tensorboard emissions, file writes) are modelled as explicit event traces.
-/

/-- The three phases accepted by `inference_one_epoch`. -/
inductive Phase
  | train
  | val
  | test
deriving DecidableEq, Repr

/-- Extended scalar used to model gradient entries: a gradient tensor cell is
either NaN, an infinity, or a finite rational. -/
inductive GVal
  | nan
  | inf
  | fin (q : ℚ)
deriving DecidableEq, Repr

/-- Modelled from the spec: `validate_gradient` lives in `lib/utils.py`, which
is not part of the sources; per the spec it checks that gradients are finite
and non-degenerate — no NaN/Inf anywhere, and at least one parameter has a
nonzero gradient. -/
def validate_gradient (grads : List (List GVal)) : Bool :=
  grads.all (fun p => p.all (fun g => match g with | GVal.fin _ => true | _ => false))
    && grads.any (fun p => p.any (fun g => g ≠ GVal.fin 0))

/-- Modelled from the spec: `AverageMeter` lives in `lib/timer.py`, which is
not part of the sources; per the spec it keeps a running sum and a count, and
the average is sum / count. -/
structure AverageMeter where
  sum : ℚ
  count : Nat
deriving DecidableEq, Repr

/-- A fresh accumulator, as constructed at lazy initialization. -/
def AverageMeter.mk0 : AverageMeter := ⟨0, 0⟩

/-- Method update adds one observation. -/
def AverageMeter.update (m : AverageMeter) (v : ℚ) : AverageMeter :=
  ⟨m.sum + v, m.count + 1⟩

/-- The running average, sum / count. -/
def AverageMeter.avg (m : AverageMeter) : ℚ := m.sum / (m.count : ℚ)

/-- One batch as seen by the epoch loop.  `lossInfo` is the LossInfo mapping
returned by the external loss function (a Python dict, so keys are unique in
practice); `grads` is the gradient state of the model parameters at the
moment the step decision fires for this batch; `rmses` is the output of
`get_recall` (external RANSAC evaluation) for this batch in val/test phase. -/
structure Batch where
  lossInfo : List (String × ℚ)
  grads : List (List GVal)
  rmses : List ℚ
deriving DecidableEq, Repr

/-- Keys of an association list. -/
def keysOf (l : List (String × ℚ)) : List String := l.map Prod.fst

/-- Insert a key at the back if not present, mirroring Python dict insertion
order. -/
def insertKey (ks : List String) (k : String) : List String :=
  if k ∈ ks then ks else ks ++ [k]

/-- The key set (in insertion order, duplicates collapsed) of a Python dict
built by iterating an association list. -/
def dictKeys (l : List (String × ℚ)) : List String :=
  l.foldl (fun ks p => insertKey ks p.1) []

/-- Lazy creation: a dict with a fresh AverageMeter per LossInfo key. -/
def initStats (l : List (String × ℚ)) : List (String × AverageMeter) :=
  (dictKeys l).map (fun k => (k, AverageMeter.mk0))

/-- Python exceptions that the epoch loop can raise. -/
inductive EpochErr
  | keyErr (k : String)
  | divZero
  | statsNone
deriving DecidableEq, Repr

/-- Update of one stats-meter entry: a KeyError if the key is untracked. -/
def updateStats : List (String × AverageMeter) → String → ℚ →
    Except EpochErr (List (String × AverageMeter))
  | [], k, _ => Except.error (EpochErr.keyErr k)
  | p :: rest, k, v =>
    if p.1 = k then Except.ok ((p.1, p.2.update v) :: rest)
    else (updateStats rest k v).map (fun r => p :: r)

/-- Update of every LossInfo key in the stats meter, in order. -/
def updateAll (stats : List (String × AverageMeter)) :
    List (String × ℚ) → Except EpochErr (List (String × AverageMeter))
  | [] => Except.ok stats
  | p :: rest =>
    match updateStats stats p.1 p.2 with
    | Except.error e => Except.error e
    | Except.ok s1 => updateAll s1 rest

/-- Events recording the observable side effects of one epoch. -/
inductive Ev
  | zeroGradStart
  | stepDecision (c : Nat)
  | stepApplied (c : Nat)
  | warnInvalid (c : Nat)
  | zeroGradLoop (c : Nat)
  | emitScalar (ph : Phase) (key : String) (value : ℚ) (step : Nat)
  | progressLog (epoch : Nat) (c : Nat)
  | recallReport (ph : Phase) (epoch : Nat) (rr : ℚ)
  | finalLog (ph : Phase) (epoch : Nat)
  | batchDone (c : Nat)
deriving DecidableEq, Repr

/-- The mutable state threaded through the batch loop: the lazily created
stats meter and the success count for val/test recall. -/
structure EpochState where
  statsMeter : Option (List (String × AverageMeter))
  succ : Nat
deriving DecidableEq, Repr

/-- Trainer state and configuration, mirroring the fields set up in
`Trainer.__init__` that the modelled methods read. -/
structure Trainer where
  start_epoch : Nat
  max_epoch : Nat
  save_dir : String
  verbose : Bool
  iter_size : Nat
  verbose_freq : Nat
  batch_size : Nat
  local_rank : Int
  do_valid : Bool
  distributed : Bool
  parallel : Bool
  best_loss : ℚ
  best_recall : ℚ
  modelSD : List (List Char × ℚ)
  optimizerState : ℚ
  schedulerState : ℚ
deriving DecidableEq, Repr

/-- Events of the step-decision block: if `(c_iter + 1) % self.iter_size == 0
and the phase is train, then validate the gradient, step or warn, and zero the
pending gradients regardless of the outcome. -/
def optEvents (tr : Trainer) (phase : Phase) (c : Nat) (b : Batch) : List Ev :=
  if (c + 1) % tr.iter_size = 0 ∧ phase = Phase.train then
    Ev.stepDecision c ::
      (if validate_gradient b.grads then [Ev.stepApplied c] else [Ev.warnInvalid c])
      ++ [Ev.zeroGradLoop c]
  else []

/-- Events of the verbose-logging block in train phase: when
`(c_iter + 1) % self.verbose_freq == 0 and self.verbose`, every running
average is emitted at global step `total_iterations * (epoch - 1) + c_iter`,
followed by a progress line to the logger. -/
def emitEvents (tr : Trainer) (phase : Phase) (T ep c : Nat)
    (stats : List (String × AverageMeter)) : List Ev :=
  if (c + 1) % tr.verbose_freq = 0 ∧ tr.verbose = true then
    stats.map (fun p => Ev.emitScalar phase p.1 p.2.avg (T * (ep - 1) + c))
      ++ [Ev.progressLog ep c]
  else []

/-- The per-batch success count: the number of RMSE values strictly below 0.2. -/
def succCount (b : Batch) : Nat :=
  (b.rmses.filter (fun r => r < (1 : ℚ) / 5)).length

/-- The body of one iteration of the epoch loop (batch index `c`).  The
modulus in the step-decision test is evaluated in every phase, so
`iter_size = 0` raises ZeroDivisionError; the stats meter is created lazily
from the LossInfo keys of the first batch and then every LossInfo key is
updated (KeyError on an untracked key). -/
def processBatch (tr : Trainer) (phase : Phase) (T ep c : Nat) (b : Batch)
    (st : EpochState) : Except EpochErr (EpochState × List Ev) :=
  if tr.iter_size = 0 then Except.error EpochErr.divZero else
  let stats0 := match st.statsMeter with
    | none => initStats b.lossInfo
    | some s => s
  match updateAll stats0 b.lossInfo with
  | Except.error e => Except.error e
  | Except.ok stats1 =>
    if phase = Phase.train then
      Except.ok (⟨some stats1, st.succ⟩,
        optEvents tr phase c b ++ emitEvents tr phase T ep c stats1 ++ [Ev.batchDone c])
    else
      Except.ok (⟨some stats1, st.succ + succCount b⟩,
        optEvents tr phase c b ++ [Ev.batchDone c])

/-- The epoch loop over the remaining batches, starting at index `c`. -/
def runBatches (tr : Trainer) (phase : Phase) (T ep : Nat) :
    Nat → List Batch → EpochState → Except EpochErr (EpochState × List Ev)
  | _, [], st => Except.ok (st, [])
  | c, b :: rest, st =>
    match processBatch tr phase T ep c b st with
    | Except.error e => Except.error e
    | Except.ok r1 =>
      match runBatches tr phase T ep (c + 1) rest r1.1 with
      | Except.error e => Except.error e
      | Except.ok r2 => Except.ok (r2.1, r1.2 ++ r2.2)

/-- End-of-epoch reporting.  Iterating a `None` stats meter raises
(AttributeError, modelled as `statsNone`); in val/test the recall
`succ / (total_iterations * batch_size)` is computed after the per-key
emission, raising ZeroDivisionError when the denominator is zero. -/
def postEpoch (tr : Trainer) (ep : Nat) (phase : Phase) (T : Nat)
    (st : EpochState) : Except EpochErr (List (String × AverageMeter) × List Ev) :=
  match st.statsMeter with
  | none => Except.error EpochErr.statsNone
  | some stats =>
    if phase = Phase.train then
      Except.ok (stats, [Ev.finalLog phase ep])
    else
      let emits := stats.map (fun p => Ev.emitScalar phase p.1 p.2.avg ep)
      if T * tr.batch_size = 0 then Except.error EpochErr.divZero
      else
        let rr : ℚ := (st.succ : ℚ) / ((T * tr.batch_size : Nat) : ℚ)
        Except.ok (stats, emits ++ [Ev.recallReport phase ep rr, Ev.finalLog phase ep])

/-- Method inference_one_epoch: zero the gradients, loop over the batches,
then report.  Returns the final stats meter, the success count and the event
trace. -/
def inference_one_epoch (tr : Trainer) (ep : Nat) (phase : Phase)
    (batches : List Batch) :
    Except EpochErr (List (String × AverageMeter) × Nat × List Ev) :=
  match runBatches tr phase batches.length ep 0 batches ⟨none, 0⟩ with
  | Except.error e => Except.error e
  | Except.ok r =>
    match postEpoch tr ep phase batches.length r.1 with
    | Except.error e => Except.error e
    | Except.ok p => Except.ok (p.1, r.1.succ, Ev.zeroGradStart :: (r.2 ++ p.2))

/-- Index projection of step-decision events. -/
def decIdx : Ev → Option Nat
  | Ev.stepDecision c => some c
  | _ => none

/-- Index projection of applied optimizer steps. -/
def appliedIdx : Ev → Option Nat
  | Ev.stepApplied c => some c
  | _ => none

/-- Index projection of invalid-gradient warnings. -/
def warnIdx : Ev → Option Nat
  | Ev.warnInvalid c => some c
  | _ => none

/-- Index projection of in-loop gradient clears. -/
def zeroLoopIdx : Ev → Option Nat
  | Ev.zeroGradLoop c => some c
  | _ => none

/-- Index projection of completed batches. -/
def doneIdx : Ev → Option Nat
  | Ev.batchDone c => some c
  | _ => none

/-- Key/step projection of tensorboard emissions. -/
def emitPair : Ev → Option (String × Nat)
  | Ev.emitScalar _ k _ s => some (k, s)
  | _ => none

/-- Recall-value projection of the end-of-epoch recall report. -/
def recallVal : Ev → Option ℚ
  | Ev.recallReport _ _ rr => some rr
  | _ => none

/-- Recognizer for the pre-loop gradient clear. -/
def isZeroStart : Ev → Bool
  | Ev.zeroGradStart => true
  | _ => false

/-- The list of n consecutive indices starting at c. -/
def idxList : Nat → Nat → List Nat
  | _, 0 => []
  | c, Nat.succ n => c :: idxList (c + 1) n

/-- The batches paired with their zero-based loop indices, starting at `c`. -/
def enumF : Nat → List Batch → List (Nat × Batch)
  | _, [] => []
  | c, b :: rest => (c, b) :: enumF (c + 1) rest

/-- A usable data loader: nonempty, and every LossInfo key of every later
batch is already a key of the first batch (the normal case — the external
loss function returns the same dict shape every time). -/
def wfLoader : List Batch → Prop
  | [] => False
  | b1 :: rest => ∀ b ∈ rest, ∀ k ∈ keysOf b.lossInfo, k ∈ dictKeys b1.lossInfo

instance wfLoaderDec : (bs : List Batch) → Decidable (wfLoader bs)
  | [] => isFalse (fun h => h)
  | b1 :: rest =>
    inferInstanceAs (Decidable (∀ b ∈ rest, ∀ k ∈ keysOf b.lossInfo, k ∈ dictKeys b1.lossInfo))

/-- A persisted checkpoint: the dictionary `torch.save` serializes in
`_snapshot`.  Parameter names are lists of characters so that the
seven-character `module.` wrapper marker can be manipulated positionally. -/
structure Checkpoint where
  epoch : Nat
  state_dict : List (List Char × ℚ)
  optimizer : ℚ
  scheduler : ℚ
  best_loss : ℚ
  best_recall : ℚ
deriving DecidableEq, Repr

/-- The parameter-name marker added by the DistributedDataParallel and
DataParallel wrappers. -/
def moduleMark : List Char := "module.".toList

/-- The state dictionary of the possibly wrapped model: when wrapped (distributed or
parallel), every underlying parameter name is exposed with the wrapper
marker prepended. -/
def Trainer.modelStateDict (tr : Trainer) : List (List Char × ℚ) :=
  if tr.distributed ∨ tr.parallel then
    tr.modelSD.map (fun p => (moduleMark ++ p.1, p.2))
  else tr.modelSD

/-- The state dictionary `_snapshot` serializes: `key[7:]` strips the wrapper
marker in distributed mode; in parallel mode the unwrapped
`self.model.module.state_dict()` is used instead. -/
def snapshotModelSD (tr : Trainer) : List (List Char × ℚ) :=
  if tr.distributed then
    tr.modelStateDict.map (fun p => (p.1.drop 7, p.2))
  else if tr.parallel then tr.modelSD
  else tr.modelStateDict

/-- The checkpoint record assembled by `Trainer._snapshot(epoch, name)`. -/
def snapshotCkpt (tr : Trainer) (epoch : Nat) : Checkpoint :=
  { epoch := epoch
    state_dict := snapshotModelSD tr
    optimizer := tr.optimizerState
    scheduler := tr.schedulerState
    best_loss := tr.best_loss
    best_recall := tr.best_recall }

/-- One `torch.save(state, path)` call. -/
structure WriteOp where
  path : String
  content : Checkpoint
deriving DecidableEq, Repr

/-- The archival file name used by `_snapshot`: `model_<name>.pth` when a
label is given, else `model_<epoch>.pth`. -/
def archivalPath (epoch : Nat) (name : Option String) : String :=
  match name with
  | none => "model_" ++ toString epoch ++ ".pth"
  | some n => "model_" ++ n ++ ".pth"

/-- The two file writes `_snapshot` performs, in program order: first the
fixed-name latest file `snapshot.pth`, then the archival
`model_<label>.pth` (label = `name` when given, else the epoch number). -/
def snapshotWrites (tr : Trainer) (epoch : Nat) (name : Option String) : List WriteOp :=
  let state := snapshotCkpt tr epoch
  [⟨"snapshot.pth", state⟩, ⟨archivalPath epoch name, state⟩]

/-- A file system: an association from path to checkpoint content. -/
def FS := List (String × Checkpoint)

/-- Look a path up in the file system. -/
def lookupFS : List (String × Checkpoint) → String → Option Checkpoint
  | [], _ => none
  | p :: rest, path => if p.1 = path then some p.2 else lookupFS rest path

/-- Perform one write (overwriting any previous content at the path). -/
def writeFS (fs : List (String × Checkpoint)) (w : WriteOp) : List (String × Checkpoint) :=
  (w.path, w.content) :: fs.filter (fun p => p.1 ≠ w.path)

/-- Perform a sequence of writes in order. -/
def applyWrites (fs : List (String × Checkpoint)) (ws : List WriteOp) :
    List (String × Checkpoint) :=
  ws.foldl writeFS fs

/-- Applying the checkpoint dictionary in `_load_pretrain` once the file was
found: in distributed mode the wrapper marker is prepended to every key
before `load_state_dict`; the model is wrapped at load time exactly in
distributed mode (in parallel mode the DataParallel wrap happens after
`_load_pretrain` in `__init__`), so the wrapped model strips the marker
again when storing the parameters.  `start_epoch` becomes the stored epoch
plus one; scheduler, optimizer and best scores are restored verbatim. -/
def loadApply (tr : Trainer) (st : Checkpoint) : Trainer :=
  let model_dict :=
    if tr.distributed then st.state_dict.map (fun p => (moduleMark ++ p.1, p.2))
    else st.state_dict
  { tr with
    modelSD := if tr.distributed then model_dict.map (fun p => (p.1.drop 7, p.2))
               else model_dict
    start_epoch := st.epoch + 1
    schedulerState := st.scheduler
    optimizerState := st.optimizer
    best_loss := st.best_loss
    best_recall := st.best_recall }

/-- Method _load_pretrain: the resume path is joined onto save_dir;
if no file exists there, nothing is modified and
`no snapshot training from start` is printed. -/
def loadPretrain (tr : Trainer) (fs : List (String × Checkpoint)) (resume : String) :
    Trainer × List String :=
  let path := tr.save_dir ++ "/" ++ resume
  match lookupFS fs path with
  | some st =>
    (loadApply tr st, ["loading pretrained " ++ path, "loading pretrained finished"])
  | none => (tr, ["no snapshot training from start"])

/-- The configuration record handed to `Trainer.__init__`. -/
structure Args where
  max_epoch : Nat
  save_dir : String
  verbose : Bool
  iter_size : Nat
  verbose_freq : Nat
  batch_size : Nat
  local_rank : Int
  do_valid : Bool
  distributed : Bool
  parallel : Bool
  exp_dir_overfit : Bool
  pretrain : String
  modelSD : List (List Char × ℚ)
  optimizerState : ℚ
  schedulerState : ℚ
deriving DecidableEq, Repr

/-- The state set up by `Trainer.__init__` before any pretrain loading:
`start_epoch = 1`, `best_loss = 1e5`, `best_recall = -1e5`, and the
effective verbose frequency is `args.verbose_freq // args.batch_size + 1`,
overridden to 1 when the experiment directory contains `overfit`. -/
def mkTrainer (args : Args) : Trainer :=
  { start_epoch := 1
    max_epoch := args.max_epoch
    save_dir := args.save_dir
    verbose := args.verbose
    iter_size := args.iter_size
    verbose_freq := if args.exp_dir_overfit then 1
                    else args.verbose_freq / args.batch_size + 1
    batch_size := args.batch_size
    local_rank := args.local_rank
    do_valid := args.do_valid
    distributed := args.distributed
    parallel := args.parallel
    best_loss := 100000
    best_recall := -100000
    modelSD := args.modelSD
    optimizerState := args.optimizerState
    schedulerState := args.schedulerState }

/-- Initialization constructs the fresh state and then, when a pretrain path is
configured, runs `_load_pretrain` on it. -/
def initTrainer (args : Args) (fs : List (String × Checkpoint)) : Trainer × List String :=
  if args.pretrain ≠ "" then loadPretrain (mkTrainer args) fs args.pretrain
  else (mkTrainer args, [])

/-- Lookup of one stats-meter key, as an option. -/
def findMeter : List (String × AverageMeter) → String → Option AverageMeter
  | [], _ => none
  | p :: rest, k => if p.1 = k then some p.2 else findMeter rest k

/-- Top-level events of `Trainer.train`. -/
inductive TopEv
  | ranEpoch (e : Nat) (ph : Phase)
  | schedStep
  | snapshotSaved (e : Nat) (lossLabel : ℚ)
deriving DecidableEq, Repr

/-- The body of the `for epoch in range(start_epoch, max_epoch)` loop in
`Trainer.train`.  The loop body ends in an unconditional `break`, so at most
the first epoch of the range is executed: run the train epoch, step the
scheduler, read the average of the loss meter (KeyError when untracked),
checkpoint on local rank 0, optionally run a validation epoch, then stop. -/
def trainLoop (tr : Trainer) (loaders : Phase → List Batch) :
    List Nat → Except EpochErr (List TopEv)
  | [] => Except.ok []
  | e :: _ =>
    match inference_one_epoch tr e Phase.train (loaders Phase.train) with
    | Except.error err => Except.error err
    | Except.ok r =>
      match findMeter r.1 "loss" with
      | none => Except.error (EpochErr.keyErr "loss")
      | some m =>
        let snapEvs := if tr.local_rank = 0 then [TopEv.snapshotSaved e m.avg] else []
        if tr.do_valid then
          match inference_one_epoch tr e Phase.val (loaders Phase.val) with
          | Except.error err => Except.error err
          | Except.ok _ =>
            Except.ok ([TopEv.ranEpoch e Phase.train, TopEv.schedStep] ++ snapEvs
              ++ [TopEv.ranEpoch e Phase.val])
        else
          Except.ok ([TopEv.ranEpoch e Phase.train, TopEv.schedStep] ++ snapEvs)

/-- Method train: iterate the epoch range from the stored start epoch. -/
def Trainer.train (tr : Trainer) (loaders : Phase → List Batch) :
    Except EpochErr (List TopEv) :=
  trainLoop tr loaders (idxList tr.start_epoch (tr.max_epoch - tr.start_epoch))

/-- Concatenation of the images of a list-valued function. -/
def flatList {α β : Type} (f : α → List β) : List α → List β
  | [] => []
  | a :: l => f a ++ flatList f l

/-- Total number of registration successes accumulated over the batches. -/
def sumSucc (bs : List Batch) : Nat := (bs.map succCount).sum

/-- The key/step pairs emitted to the metrics sink by a completed epoch. -/
def epochEmits
    (r : Except EpochErr (List (String × AverageMeter) × Nat × List Ev)) :
    List (String × Nat) :=
  match r with
  | Except.error _ => []
  | Except.ok p => p.2.2.filterMap emitPair

/-! ## Concrete sample data used to instantiate the theorems -/

/-- A gradient state that passes validation: finite and nonzero. -/
def gradsOk : List (List GVal) := [[GVal.fin 1]]

/-- A sample trainer configuration. -/
def trEx : Trainer :=
  { start_epoch := 1
    max_epoch := 5
    save_dir := "d"
    verbose := true
    iter_size := 2
    verbose_freq := 3
    batch_size := 1
    local_rank := 0
    do_valid := false
    distributed := false
    parallel := false
    best_loss := 100000
    best_recall := -100000
    modelSD := []
    optimizerState := 0
    schedulerState := 0 }

/-- A distributed-mode trainer with a wrapped one-parameter model. -/
def trD4 : Trainer :=
  { trEx with distributed := true, modelSD := [("w".toList, 3)] }

/-- A train-phase batch with a valid gradient. -/
def bT : Batch := ⟨[("loss", 2)], gradsOk, []⟩

/-- A train-phase batch whose gradient contains a NaN. -/
def bNan : Batch := ⟨[("loss", 2)], [[GVal.nan]], []⟩

/-- A batch whose LossInfo introduces a key absent from the first batch. -/
def bT2 : Batch := ⟨[("loss", 2), ("extra", 3)], gradsOk, []⟩

/-- A val-phase batch with a single evaluated sample of the given RMSE. -/
def bV (r : ℚ) : Batch := ⟨[("loss", 2)], gradsOk, [r]⟩

/-- A sample configuration record (no pretrain path). -/
def argsEx : Args :=
  { max_epoch := 5
    save_dir := "d"
    verbose := true
    iter_size := 2
    verbose_freq := 4
    batch_size := 2
    local_rank := 0
    do_valid := false
    distributed := false
    parallel := false
    exp_dir_overfit := false
    pretrain := ""
    modelSD := []
    optimizerState := 0
    schedulerState := 0 }

/-- The sample configuration with a pretrain path configured. -/
def argsPre : Args := { argsEx with pretrain := "ck.pth" }

/-- The trainer built from `argsEx`: its effective verbose frequency is
`4 / 2 + 1 = 3`, not the configured `4`. -/
def trC8 : Trainer := mkTrainer argsEx

/-! ## Lemmas about the stats meter -/

theorem mem_insertKey (ks : List String) (k0 k : String) :
    k ∈ insertKey ks k0 ↔ k ∈ ks ∨ k = k0 := by
  unfold insertKey
  by_cases h : k0 ∈ ks
  · simp only [if_pos h]
    constructor
    · exact Or.inl
    · rintro (hk | rfl)
      · exact hk
      · exact h
  · simp [if_neg h]

theorem mem_dictKeys_aux (l : List (String × ℚ)) :
    ∀ (ks : List String) (k : String),
      k ∈ l.foldl (fun ks p => insertKey ks p.1) ks ↔ k ∈ ks ∨ k ∈ keysOf l := by
  induction l with
  | nil => intro ks k; simp [keysOf]
  | cons p rest ih =>
    intro ks k
    simp only [List.foldl_cons, ih, mem_insertKey, keysOf, List.map_cons, List.mem_cons]
    tauto

theorem mem_dictKeys (l : List (String × ℚ)) (k : String) :
    k ∈ dictKeys l ↔ k ∈ keysOf l := by
  unfold dictKeys
  rw [mem_dictKeys_aux]
  simp

theorem initStats_keys (l : List (String × ℚ)) :
    (initStats l).map Prod.fst = dictKeys l := by
  unfold initStats
  rw [List.map_map]
  have h : (Prod.fst ∘ fun k : String => (k, AverageMeter.mk0)) = id := rfl
  rw [h, List.map_id]

theorem updateStats_ok (s : List (String × AverageMeter)) (k : String) (v : ℚ)
    (hk : k ∈ s.map Prod.fst) :
    ∃ s1, updateStats s k v = Except.ok s1 ∧ s1.map Prod.fst = s.map Prod.fst := by
  induction s with
  | nil => simp at hk
  | cons p rest ih =>
    by_cases h : p.1 = k
    · exact ⟨(p.1, p.2.update v) :: rest, by simp [updateStats, h], by simp⟩
    · have hk' : k ∈ rest.map Prod.fst := by
        rcases List.mem_cons.mp hk with h1 | h1
        · exact absurd h1.symm h
        · exact h1
      obtain ⟨s1, hs1, hkeys⟩ := ih hk'
      exact ⟨p :: s1, by simp [updateStats, h, hs1, Except.map], by simp [hkeys]⟩

theorem updateStats_err (s : List (String × AverageMeter)) (k : String) (v : ℚ)
    (hk : k ∉ s.map Prod.fst) :
    updateStats s k v = Except.error (EpochErr.keyErr k) := by
  induction s with
  | nil => rfl
  | cons p rest ih =>
    have h1 : ¬ p.1 = k := fun h => hk (by simp [h])
    have h2 : k ∉ rest.map Prod.fst := fun h => hk (by simp [h])
    simp [updateStats, h1, ih h2, Except.map]

theorem updateAll_ok (l : List (String × ℚ)) :
    ∀ (s : List (String × AverageMeter)),
      (∀ k ∈ keysOf l, k ∈ s.map Prod.fst) →
      ∃ s1, updateAll s l = Except.ok s1 ∧ s1.map Prod.fst = s.map Prod.fst := by
  induction l with
  | nil => intro s _; exact ⟨s, rfl, rfl⟩
  | cons p rest ih =>
    intro s hks
    have hp : p.1 ∈ s.map Prod.fst := hks p.1 (by simp [keysOf])
    obtain ⟨s1, hs1, hkeys1⟩ := updateStats_ok s p.1 p.2 hp
    have hrest : ∀ k ∈ keysOf rest, k ∈ s1.map Prod.fst := by
      intro k hk
      rw [hkeys1]
      exact hks k (by simp [keysOf] at hk ⊢; exact Or.inr hk)
    obtain ⟨s2, hs2, hkeys2⟩ := ih s1 hrest
    refine ⟨s2, ?_, hkeys2.trans hkeys1⟩
    simp only [updateAll, hs1]
    exact hs2

theorem updateAll_err (l : List (String × ℚ)) :
    ∀ (s : List (String × AverageMeter)) (k : String),
      k ∈ keysOf l → k ∉ s.map Prod.fst →
      ∃ k1, updateAll s l = Except.error (EpochErr.keyErr k1) := by
  induction l with
  | nil => intro s k hk; simp [keysOf] at hk
  | cons p rest ih =>
    intro s k hk hks
    by_cases hp : p.1 ∈ s.map Prod.fst
    · obtain ⟨s1, hs1, hkeys1⟩ := updateStats_ok s p.1 p.2 hp
      have hk' : k ∈ keysOf rest := by
        rcases (by simpa [keysOf] using hk : k = p.1 ∨ k ∈ keysOf rest) with rfl | h1
        · exact absurd hp hks
        · exact h1
      obtain ⟨k1, hk1⟩ := ih s1 k hk' (by rw [hkeys1]; exact hks)
      refine ⟨k1, ?_⟩
      simp only [updateAll, hs1]
      exact hk1
    · refine ⟨p.1, ?_⟩
      simp only [updateAll, updateStats_err s p.1 p.2 hp]

theorem findMeter_some (s : List (String × AverageMeter)) (k : String)
    (hk : k ∈ s.map Prod.fst) :
    ∃ m, findMeter s k = some m := by
  induction s with
  | nil => simp at hk
  | cons p rest ih =>
    by_cases h : p.1 = k
    · exact ⟨p.2, by simp [findMeter, h]⟩
    · have hk' : k ∈ rest.map Prod.fst := by
        rcases List.mem_cons.mp hk with h1 | h1
        · exact absurd h1.symm h
        · exact h1
      obtain ⟨m, hm⟩ := ih hk'
      exact ⟨m, by simp [findMeter, h, hm]⟩

/-! ## Lemmas about index lists -/

theorem idxList_succ (c n : Nat) : idxList c (n + 1) = c :: idxList (c + 1) n := rfl

theorem enumF_cons (c : Nat) (b : Batch) (rest : List Batch) :
    enumF c (b :: rest) = (c, b) :: enumF (c + 1) rest := rfl

theorem mem_enumF (bs : List Batch) :
    ∀ (c : Nat) (p : Nat × Batch),
      p ∈ enumF c bs ↔ ∃ j, ∃ hj : j < bs.length, p = (c + j, bs.get ⟨j, hj⟩) := by
  induction bs with
  | nil => intro c p; simp [enumF]
  | cons b rest ih =>
    intro c p
    rw [enumF_cons, List.mem_cons, ih]
    constructor
    · rintro (rfl | ⟨j, hj, rfl⟩)
      · exact ⟨0, by simp, by simp⟩
      · exact ⟨j + 1, by simpa using hj, by simp [List.get]; omega⟩
    · rintro ⟨j, hj, rfl⟩
      match j with
      | 0 => exact Or.inl (by simp [List.get])
      | Nat.succ j0 =>
        exact Or.inr ⟨j0, by simpa using hj, by simp [List.get]; omega⟩

/-! ## Per-batch behaviour in the train phase -/

theorem filterMap_emitPair_map (ph : Phase) (n : Nat)
    (s : List (String × AverageMeter)) :
    (s.map (fun p => Ev.emitScalar ph p.1 p.2.avg n)).filterMap emitPair
      = (s.map Prod.fst).map (fun k => (k, n)) := by
  induction s with
  | nil => rfl
  | cons q qs ih => simp [List.filterMap_cons, emitPair, ih]

theorem filterMap_emitPair_comp (ph : Phase) (n : Nat)
    (s : List (String × AverageMeter)) :
    s.filterMap (emitPair ∘ fun p => Ev.emitScalar ph p.1 p.2.avg n)
      = s.map ((fun k => (k, n)) ∘ Prod.fst) := by
  induction s with
  | nil => rfl
  | cons q qs ih => simp [List.filterMap_cons, emitPair, ih, Function.comp]

theorem processBatch_train_spec (tr : Trainer) (T ep c : Nat) (b : Batch)
    (st : EpochState) (s0 : List (String × AverageMeter))
    (hs0 : (match st.statsMeter with
            | none => initStats b.lossInfo
            | some s => s) = s0)
    (hiter : tr.iter_size ≠ 0)
    (hks : ∀ k ∈ keysOf b.lossInfo, k ∈ s0.map Prod.fst) :
    ∃ s1 evs, processBatch tr Phase.train T ep c b st = Except.ok (⟨some s1, st.succ⟩, evs) ∧
      s1.map Prod.fst = s0.map Prod.fst ∧
      evs.filterMap decIdx = (if (c + 1) % tr.iter_size = 0 then [c] else []) ∧
      evs.filterMap zeroLoopIdx = (if (c + 1) % tr.iter_size = 0 then [c] else []) ∧
      evs.filterMap appliedIdx =
        (if (c + 1) % tr.iter_size = 0 ∧ validate_gradient b.grads = true then [c] else []) ∧
      evs.filterMap warnIdx =
        (if (c + 1) % tr.iter_size = 0 ∧ validate_gradient b.grads = false then [c] else []) ∧
      evs.filterMap emitPair =
        (if (c + 1) % tr.verbose_freq = 0 ∧ tr.verbose = true then
          (s0.map Prod.fst).map (fun k => (k, T * (ep - 1) + c)) else []) ∧
      evs.filterMap doneIdx = [c] ∧
      evs.countP (fun e => isZeroStart e) = 0 := by
  obtain ⟨s1, hupd, hkeys⟩ := updateAll_ok b.lossInfo s0 hks
  refine ⟨s1, optEvents tr Phase.train c b ++ emitEvents tr Phase.train T ep c s1
    ++ [Ev.batchDone c], ?_, hkeys, ?_, ?_, ?_, ?_, ?_, ?_, ?_⟩
  · simp [processBatch, if_neg hiter, hs0, hupd]
  all_goals
    simp only [List.filterMap_append, List.countP_append, optEvents, emitEvents]
  all_goals
    by_cases hf : (c + 1) % tr.iter_size = 0 <;>
    by_cases hv : validate_gradient b.grads <;>
    by_cases he : (c + 1) % tr.verbose_freq = 0 ∧ tr.verbose = true <;>
      simp [hf, hv, he, decIdx, zeroLoopIdx, appliedIdx, warnIdx, emitPair, doneIdx,
        isZeroStart, List.filterMap_cons, filterMap_emitPair_map,
        filterMap_emitPair_comp, ← hkeys]

theorem runBatches_train_spec (tr : Trainer) (T ep : Nat) (hiter : tr.iter_size ≠ 0) :
    ∀ (bs : List Batch) (c : Nat) (s : List (String × AverageMeter)) (succ : Nat),
      (∀ b ∈ bs, ∀ k ∈ keysOf b.lossInfo, k ∈ s.map Prod.fst) →
      ∃ s2 evs,
        runBatches tr Phase.train T ep c bs ⟨some s, succ⟩
          = Except.ok (⟨some s2, succ⟩, evs) ∧
        s2.map Prod.fst = s.map Prod.fst ∧
        evs.filterMap decIdx
          = (idxList c bs.length).filter (fun i => (i + 1) % tr.iter_size == 0) ∧
        evs.filterMap zeroLoopIdx
          = (idxList c bs.length).filter (fun i => (i + 1) % tr.iter_size == 0) ∧
        evs.filterMap appliedIdx = (enumF c bs).filterMap
          (fun p => if (p.1 + 1) % tr.iter_size = 0 ∧ validate_gradient p.2.grads = true
                    then some p.1 else none) ∧
        evs.filterMap warnIdx = (enumF c bs).filterMap
          (fun p => if (p.1 + 1) % tr.iter_size = 0 ∧ validate_gradient p.2.grads = false
                    then some p.1 else none) ∧
        evs.filterMap emitPair = flatList
          (fun p => if (p.1 + 1) % tr.verbose_freq = 0 ∧ tr.verbose = true then
             (s.map Prod.fst).map (fun k => (k, T * (ep - 1) + p.1)) else [])
          (enumF c bs) ∧
        evs.filterMap doneIdx = idxList c bs.length ∧
        evs.countP (fun e => isZeroStart e) = 0 := by
  intro bs
  induction bs with
  | nil =>
    intro c s succ _
    exact ⟨s, [], rfl, rfl, rfl, rfl, rfl, rfl, rfl, rfl, rfl⟩
  | cons b rest ih =>
    intro c s succ hks
    obtain ⟨s1, evs1, hpb, hkeys1, hdec1, hzero1, happ1, hwarn1, hemit1, hdone1, hzs1⟩ :=
      processBatch_train_spec tr T ep c b ⟨some s, succ⟩ s rfl hiter
        (hks b (List.mem_cons_self b rest))
    obtain ⟨s2, evs2, hrun, hkeys2, hdec2, hzero2, happ2, hwarn2, hemit2, hdone2, hzs2⟩ :=
      ih (c + 1) s1 succ
        (by intro b2 hb2 k hk
            rw [hkeys1]
            exact hks b2 (List.mem_cons_of_mem b hb2) k hk)
    refine ⟨s2, evs1 ++ evs2, ?_, hkeys2.trans hkeys1, ?_, ?_, ?_, ?_, ?_, ?_, ?_⟩
    · simp only [runBatches, hpb, hrun]
    · rw [List.filterMap_append, hdec1, hdec2]
      simp only [List.length_cons, idxList_succ, List.filter_cons]
      by_cases hf : (c + 1) % tr.iter_size = 0 <;> simp [hf]
    · rw [List.filterMap_append, hzero1, hzero2]
      simp only [List.length_cons, idxList_succ, List.filter_cons]
      by_cases hf : (c + 1) % tr.iter_size = 0 <;> simp [hf]
    · rw [List.filterMap_append, happ1, happ2, enumF_cons, List.filterMap_cons]
      by_cases hf : (c + 1) % tr.iter_size = 0 <;>
        by_cases hv : validate_gradient b.grads <;> simp [hf, hv]
    · rw [List.filterMap_append, hwarn1, hwarn2, enumF_cons, List.filterMap_cons]
      by_cases hf : (c + 1) % tr.iter_size = 0 <;>
        by_cases hv : validate_gradient b.grads <;> simp [hf, hv]
    · rw [List.filterMap_append, hemit1, hemit2, enumF_cons]
      simp only [flatList, hkeys1]
    · rw [List.filterMap_append, hdone1, hdone2]
      simp [idxList_succ]
    · rw [List.countP_append, hzs1, hzs2]

theorem epoch_train_spec (tr : Trainer) (ep : Nat) (b1 : Batch) (rest : List Batch)
    (hiter : tr.iter_size ≠ 0)
    (hwf : ∀ b ∈ rest, ∀ k ∈ keysOf b.lossInfo, k ∈ dictKeys b1.lossInfo) :
    ∃ stats evs,
      inference_one_epoch tr ep Phase.train (b1 :: rest) = Except.ok (stats, 0, evs) ∧
      stats.map Prod.fst = dictKeys b1.lossInfo ∧
      evs.filterMap decIdx
        = (idxList 0 (b1 :: rest).length).filter (fun i => (i + 1) % tr.iter_size == 0) ∧
      evs.filterMap zeroLoopIdx
        = (idxList 0 (b1 :: rest).length).filter (fun i => (i + 1) % tr.iter_size == 0) ∧
      evs.filterMap appliedIdx = (enumF 0 (b1 :: rest)).filterMap
        (fun p => if (p.1 + 1) % tr.iter_size = 0 ∧ validate_gradient p.2.grads = true
                  then some p.1 else none) ∧
      evs.filterMap warnIdx = (enumF 0 (b1 :: rest)).filterMap
        (fun p => if (p.1 + 1) % tr.iter_size = 0 ∧ validate_gradient p.2.grads = false
                  then some p.1 else none) ∧
      evs.filterMap emitPair = flatList
        (fun p => if (p.1 + 1) % tr.verbose_freq = 0 ∧ tr.verbose = true then
           (dictKeys b1.lossInfo).map (fun k => (k, (b1 :: rest).length * (ep - 1) + p.1))
         else []) (enumF 0 (b1 :: rest)) ∧
      evs.filterMap doneIdx = idxList 0 (b1 :: rest).length ∧
      evs.countP (fun e => isZeroStart e) = 1 := by
  obtain ⟨s1, evs1, hpb, hkeys1, hdec1, hzero1, happ1, hwarn1, hemit1, hdone1, hzs1⟩ :=
    processBatch_train_spec tr (b1 :: rest).length ep 0 b1 ⟨none, 0⟩
      (initStats b1.lossInfo) rfl hiter
      (by intro k hk
          rw [initStats_keys]
          exact (mem_dictKeys _ _).mpr hk)
  have hkeysA : s1.map Prod.fst = dictKeys b1.lossInfo :=
    hkeys1.trans (initStats_keys _)
  obtain ⟨s2, evs2, hrun, hkeys2, hdec2, hzero2, happ2, hwarn2, hemit2, hdone2, hzs2⟩ :=
    runBatches_train_spec tr (b1 :: rest).length ep hiter rest 1 s1 0
      (by intro b2 hb2 k hk
          rw [hkeysA]
          exact hwf b2 hb2 k hk)
  refine ⟨s2, Ev.zeroGradStart :: ((evs1 ++ evs2) ++ [Ev.finalLog Phase.train ep]), ?_,
    hkeys2.trans hkeysA, ?_, ?_, ?_, ?_, ?_, ?_, ?_⟩
  · simp only [List.length_cons] at hpb hrun
    simp [inference_one_epoch, runBatches, hpb, hrun, postEpoch]
  · simp only [List.filterMap_cons, List.filterMap_append, hdec1, hdec2, decIdx,
      List.length_cons, idxList_succ, List.filter_cons, hkeysA]
    by_cases hf : (0 + 1) % tr.iter_size = 0 <;> simp [hf]
  · simp only [List.filterMap_cons, List.filterMap_append, hzero1, hzero2, zeroLoopIdx,
      List.length_cons, idxList_succ, List.filter_cons, hkeysA]
    by_cases hf : (0 + 1) % tr.iter_size = 0 <;> simp [hf]
  · simp only [List.filterMap_cons, List.filterMap_append, happ1, happ2, appliedIdx,
      enumF_cons]
    by_cases hf : (0 + 1) % tr.iter_size = 0 <;>
      by_cases hv : validate_gradient b1.grads <;> simp [hf, hv]
  · simp only [List.filterMap_cons, List.filterMap_append, hwarn1, hwarn2, warnIdx,
      enumF_cons]
    by_cases hf : (0 + 1) % tr.iter_size = 0 <;>
      by_cases hv : validate_gradient b1.grads <;> simp [hf, hv]
  · simp only [List.filterMap_cons, List.filterMap_append, hemit1, hemit2, emitPair,
      enumF_cons, hkeysA, flatList]
    by_cases he : tr.verbose_freq = 1 ∧ tr.verbose = true <;>
      simp [he, ← List.map_map, initStats_keys]
  · simp only [List.filterMap_cons, List.filterMap_append, hdone1, hdone2, doneIdx,
      List.length_cons, idxList_succ]
    simp
  · rw [List.countP_cons, List.countP_append, List.countP_append, hzs1, hzs2]
    simp [List.countP_cons, isZeroStart]

/-! ## Per-batch and per-epoch behaviour in the val/test phases -/

theorem filterMap_recallVal_emits (ph : Phase) (n : Nat)
    (s : List (String × AverageMeter)) :
    (s.map (fun p => Ev.emitScalar ph p.1 p.2.avg n)).filterMap recallVal = [] := by
  induction s with
  | nil => rfl
  | cons q qs ih => simp [List.filterMap_cons, recallVal, ih]

theorem processBatch_eval_spec (tr : Trainer) (phase : Phase) (T ep c : Nat) (b : Batch)
    (st : EpochState) (s0 : List (String × AverageMeter))
    (hph : phase ≠ Phase.train)
    (hs0 : (match st.statsMeter with
            | none => initStats b.lossInfo
            | some s => s) = s0)
    (hiter : tr.iter_size ≠ 0)
    (hks : ∀ k ∈ keysOf b.lossInfo, k ∈ s0.map Prod.fst) :
    ∃ s1, processBatch tr phase T ep c b st
        = Except.ok (⟨some s1, st.succ + succCount b⟩, [Ev.batchDone c]) ∧
      s1.map Prod.fst = s0.map Prod.fst := by
  obtain ⟨s1, hupd, hkeys⟩ := updateAll_ok b.lossInfo s0 hks
  refine ⟨s1, ?_, hkeys⟩
  simp [processBatch, if_neg hiter, hs0, hupd, hph, optEvents]

theorem runBatches_eval_spec (tr : Trainer) (phase : Phase) (T ep : Nat)
    (hph : phase ≠ Phase.train) (hiter : tr.iter_size ≠ 0) :
    ∀ (bs : List Batch) (c : Nat) (s : List (String × AverageMeter)) (succ : Nat),
      (∀ b ∈ bs, ∀ k ∈ keysOf b.lossInfo, k ∈ s.map Prod.fst) →
      ∃ s2 evs,
        runBatches tr phase T ep c bs ⟨some s, succ⟩
          = Except.ok (⟨some s2, succ + sumSucc bs⟩, evs) ∧
        s2.map Prod.fst = s.map Prod.fst ∧
        evs.filterMap recallVal = [] := by
  intro bs
  induction bs with
  | nil =>
    intro c s succ _
    exact ⟨s, [], by simp [runBatches, sumSucc], rfl, rfl⟩
  | cons b rest ih =>
    intro c s succ hks
    obtain ⟨s1, hpb, hkeys1⟩ :=
      processBatch_eval_spec tr phase T ep c b ⟨some s, succ⟩ s hph rfl hiter
        (hks b (List.mem_cons_self b rest))
    obtain ⟨s2, evs2, hrun, hkeys2, hrec2⟩ :=
      ih (c + 1) s1 (succ + succCount b)
        (by intro b2 hb2 k hk
            rw [hkeys1]
            exact hks b2 (List.mem_cons_of_mem b hb2) k hk)
    refine ⟨s2, [Ev.batchDone c] ++ evs2, ?_, hkeys2.trans hkeys1, ?_⟩
    · simp only [runBatches, hpb, hrun, sumSucc, List.map_cons, List.sum_cons]
      have : succ + succCount b + (rest.map succCount).sum
           = succ + (succCount b + (rest.map succCount).sum) := by omega
      rw [this]
    · simp [List.filterMap_cons, recallVal, hrec2]

theorem epoch_eval_spec (tr : Trainer) (ep : Nat) (phase : Phase)
    (hph : phase ≠ Phase.train) (b1 : Batch) (rest : List Batch)
    (hiter : tr.iter_size ≠ 0)
    (hwf : ∀ b ∈ rest, ∀ k ∈ keysOf b.lossInfo, k ∈ dictKeys b1.lossInfo)
    (hbs : tr.batch_size ≠ 0) :
    ∃ stats evs,
      inference_one_epoch tr ep phase (b1 :: rest)
        = Except.ok (stats, sumSucc (b1 :: rest), evs) ∧
      stats.map Prod.fst = dictKeys b1.lossInfo ∧
      evs.filterMap recallVal
        = [((sumSucc (b1 :: rest) : ℚ))
            / ((((b1 :: rest).length * tr.batch_size : Nat) : ℚ))] := by
  obtain ⟨s1, hpb, hkeys1⟩ :=
    processBatch_eval_spec tr phase (b1 :: rest).length ep 0 b1 ⟨none, 0⟩
      (initStats b1.lossInfo) hph rfl hiter
      (by intro k hk
          rw [initStats_keys]
          exact (mem_dictKeys _ _).mpr hk)
  have hkeysA : s1.map Prod.fst = dictKeys b1.lossInfo :=
    hkeys1.trans (initStats_keys _)
  obtain ⟨s2, evs2, hrun, hkeys2, hrec2⟩ :=
    runBatches_eval_spec tr phase (b1 :: rest).length ep hph hiter rest 1 s1
      (0 + succCount b1)
      (by intro b2 hb2 k hk
          rw [hkeysA]
          exact hwf b2 hb2 k hk)
  have hdenom : ¬ ((b1 :: rest).length * tr.batch_size = 0) := by
    simp [List.length_cons]
    omega
  have hsum : 0 + succCount b1 + sumSucc rest = sumSucc (b1 :: rest) := by
    simp [sumSucc]
  refine ⟨s2, Ev.zeroGradStart ::
      (([Ev.batchDone 0] ++ evs2)
        ++ (s2.map (fun p => Ev.emitScalar phase p.1 p.2.avg ep)
            ++ [Ev.recallReport phase ep
                  ((sumSucc (b1 :: rest) : ℚ)
                    / ((((b1 :: rest).length * tr.batch_size : Nat) : ℚ))),
                Ev.finalLog phase ep])), ?_, hkeys2.trans hkeysA, ?_⟩
  · simp only [List.length_cons] at hpb hrun
    rw [hsum] at hrun
    simp only [Nat.zero_add] at hpb hrun
    simp [inference_one_epoch, runBatches, hpb, hrun, postEpoch, hph, hdenom, hbs]
  · simp [List.filterMap_cons, List.filterMap_append, recallVal, hrec2,
      filterMap_recallVal_emits]

/-! ## Error paths: untracked LossInfo keys -/

theorem updateStats_error_shape (s : List (String × AverageMeter)) (k : String) (v : ℚ)
    (e : EpochErr) (h : updateStats s k v = Except.error e) :
    e = EpochErr.keyErr k := by
  induction s with
  | nil =>
    simp [updateStats] at h
    exact h.symm
  | cons p rest ih =>
    by_cases hp : p.1 = k
    · simp [updateStats, hp] at h
    · simp only [updateStats, if_neg hp] at h
      cases hres : updateStats rest k v with
      | error e1 =>
        rw [hres] at h
        simp [Except.map] at h
        subst h
        exact ih hres
      | ok s1 =>
        rw [hres] at h
        simp [Except.map] at h

theorem updateAll_error_shape (l : List (String × ℚ)) :
    ∀ (s : List (String × AverageMeter)) (e : EpochErr),
      updateAll s l = Except.error e → ∃ k, e = EpochErr.keyErr k := by
  induction l with
  | nil => intro s e h; simp [updateAll] at h
  | cons p rest ih =>
    intro s e h
    simp only [updateAll] at h
    cases hres : updateStats s p.1 p.2 with
    | error e1 =>
      rw [hres] at h
      simp at h
      exact ⟨p.1, h ▸ updateStats_error_shape s p.1 p.2 e1 hres⟩
    | ok s1 =>
      rw [hres] at h
      exact ih s1 e h

theorem updateStats_keys_of_ok (s : List (String × AverageMeter)) (k : String) (v : ℚ)
    (s1 : List (String × AverageMeter)) (h : updateStats s k v = Except.ok s1) :
    s1.map Prod.fst = s.map Prod.fst := by
  induction s generalizing s1 with
  | nil => simp [updateStats] at h
  | cons p rest ih =>
    by_cases hp : p.1 = k
    · simp [updateStats, hp] at h
      rw [← h]
      simp [hp]
    · simp only [updateStats, if_neg hp] at h
      cases hres : updateStats rest k v with
      | error e1 =>
        rw [hres] at h
        simp [Except.map] at h
      | ok s2 =>
        rw [hres] at h
        simp [Except.map] at h
        rw [← h]
        simp [ih s2 hres]

theorem updateAll_keys_of_ok (l : List (String × ℚ)) :
    ∀ (s s1 : List (String × AverageMeter)),
      updateAll s l = Except.ok s1 → s1.map Prod.fst = s.map Prod.fst := by
  induction l with
  | nil =>
    intro s s1 h
    simp [updateAll] at h
    rw [h]
  | cons p rest ih =>
    intro s s1 h
    simp only [updateAll] at h
    cases hres : updateStats s p.1 p.2 with
    | error e1 => rw [hres] at h; simp at h
    | ok s2 =>
      rw [hres] at h
      exact (ih s2 s1 h).trans (updateStats_keys_of_ok s p.1 p.2 s2 hres)

theorem processBatch_train_cases (tr : Trainer) (T ep c : Nat) (b : Batch)
    (st : EpochState) (s0 : List (String × AverageMeter))
    (hs0 : (match st.statsMeter with
            | none => initStats b.lossInfo
            | some s => s) = s0)
    (hiter : tr.iter_size ≠ 0) :
    (∃ k, processBatch tr Phase.train T ep c b st = Except.error (EpochErr.keyErr k)) ∨
    (∃ s1 evs, processBatch tr Phase.train T ep c b st
        = Except.ok (⟨some s1, st.succ⟩, evs) ∧ s1.map Prod.fst = s0.map Prod.fst) := by
  cases hres : updateAll s0 b.lossInfo with
  | error e =>
    obtain ⟨k, rfl⟩ := updateAll_error_shape b.lossInfo s0 e hres
    exact Or.inl ⟨k, by simp [processBatch, if_neg hiter, hs0, hres]⟩
  | ok s1 =>
    refine Or.inr ⟨s1, optEvents tr Phase.train c b
      ++ emitEvents tr Phase.train T ep c s1 ++ [Ev.batchDone c], ?_,
      updateAll_keys_of_ok b.lossInfo s0 s1 hres⟩
    simp [processBatch, if_neg hiter, hs0, hres]

theorem runBatches_fresh_err (tr : Trainer) (T ep : Nat) (hiter : tr.iter_size ≠ 0) :
    ∀ (bs : List Batch) (c : Nat) (s : List (String × AverageMeter)) (succ : Nat)
      (b : Batch), b ∈ bs → ∀ k, k ∈ keysOf b.lossInfo → k ∉ s.map Prod.fst →
      ∃ k1, runBatches tr Phase.train T ep c bs ⟨some s, succ⟩
        = Except.error (EpochErr.keyErr k1) := by
  intro bs
  induction bs with
  | nil => intro c s succ b hb; simp at hb
  | cons b0 rest ih =>
    intro c s succ b hb k hk hnk
    rcases List.mem_cons.mp hb with rfl | hb2
    · obtain ⟨k1, hk1⟩ := updateAll_err b.lossInfo s k hk hnk
      exact ⟨k1, by simp [runBatches, processBatch, if_neg hiter, hk1]⟩
    · rcases processBatch_train_cases tr T ep c b0 ⟨some s, succ⟩ s rfl hiter with
        ⟨k1, hk1⟩ | ⟨s1, evs1, hok, hkeys⟩
      · exact ⟨k1, by simp [runBatches, hk1]⟩
      · obtain ⟨k1, hk1⟩ := ih (c + 1) s1 succ b hb2 k hk (by rw [hkeys]; exact hnk)
        exact ⟨k1, by simp [runBatches, hok, hk1]⟩

/-! ## Projection inversion helpers -/

theorem warnIdx_inv (e : Ev) (c : Nat) (h : warnIdx e = some c) :
    e = Ev.warnInvalid c := by
  cases e <;> simp_all [warnIdx]

theorem zeroLoopIdx_inv (e : Ev) (c : Nat) (h : zeroLoopIdx e = some c) :
    e = Ev.zeroGradLoop c := by
  cases e <;> simp_all [zeroLoopIdx]

theorem appliedIdx_ev (c : Nat) : appliedIdx (Ev.stepApplied c) = some c := rfl

theorem doneIdx_inv (e : Ev) (c : Nat) (h : doneIdx e = some c) :
    e = Ev.batchDone c := by
  cases e <;> simp_all [doneIdx]

theorem mem_idxList (n : Nat) :
    ∀ (c i : Nat), i ∈ idxList c n ↔ c ≤ i ∧ i < c + n := by
  induction n with
  | zero =>
    intro c i
    simp only [idxList, List.not_mem_nil, false_iff]
    omega
  | succ m ih =>
    intro c i
    simp only [idxList, List.mem_cons, ih]
    omega

/-! ## Claim theorems -/

/-- Claim C10: on an empty data loader the stats accumulator is never
initialized (the batch loop returns it still `None`), the end-of-epoch
reporting fails when iterating it (AttributeError on `None`, modelled as the
`statsNone` error), and the recall denominator
`total_iterations * batch_size` is zero in val/test phase since
total_iterations is 0; a non-empty loader is therefore a precondition of
`inference_one_epoch`. -/
theorem claim_C10_empty_loader (tr : Trainer) (ep : Nat) (phase : Phase) :
    runBatches tr phase 0 ep 0 [] ⟨none, 0⟩ = Except.ok (⟨none, 0⟩, []) ∧
    inference_one_epoch tr ep phase [] = Except.error EpochErr.statsNone ∧
    ([] : List Batch).length * tr.batch_size = 0 := by
  refine ⟨rfl, ?_, by simp⟩
  simp [inference_one_epoch, runBatches, postEpoch]

theorem drop_moduleMark (k : List Char) : (moduleMark ++ k).drop 7 = k := by
  have h : moduleMark.length = 7 := rfl
  rw [← h, List.drop_left]

theorem strip_wrap_map (l : List (List Char × ℚ)) :
    ((l.map (fun p => (moduleMark ++ p.1, p.2))).map
        (fun p : List Char × ℚ => (p.1.drop 7, p.2))) = l := by
  induction l with
  | nil => rfl
  | cons p rest ih => simp [drop_moduleMark, ih]

/-- Claim C4: saving a checkpoint at epoch `e` and loading it back yields
`start_epoch = e + 1` with optimizer state, scheduler state, best_loss and
best_recall restored verbatim, and the model parameters unchanged — the
`module.` prefixes added by the distributed/data-parallel wrappers are
stripped on save and re-added symmetrically on load. -/
theorem claim_C4_roundtrip (tr : Trainer) (e : Nat)
    (hmode : ¬ (tr.distributed = true ∧ tr.parallel = true)) :
    (loadApply tr (snapshotCkpt tr e)).start_epoch = e + 1 ∧
    (loadApply tr (snapshotCkpt tr e)).optimizerState = tr.optimizerState ∧
    (loadApply tr (snapshotCkpt tr e)).schedulerState = tr.schedulerState ∧
    (loadApply tr (snapshotCkpt tr e)).best_loss = tr.best_loss ∧
    (loadApply tr (snapshotCkpt tr e)).best_recall = tr.best_recall ∧
    (loadApply tr (snapshotCkpt tr e)).modelSD = tr.modelSD := by
  refine ⟨by simp [loadApply, snapshotCkpt], by simp [loadApply, snapshotCkpt],
    by simp [loadApply, snapshotCkpt], by simp [loadApply, snapshotCkpt],
    by simp [loadApply, snapshotCkpt], ?_⟩
  by_cases hd : tr.distributed = true
  · have hp : ¬ tr.parallel = true := fun hpar => hmode ⟨hd, hpar⟩
    have hsd : (snapshotCkpt tr e).state_dict = tr.modelSD := by
      simp only [snapshotCkpt, snapshotModelSD, Trainer.modelStateDict, hd,
        true_or, if_true, ite_true]
      exact strip_wrap_map tr.modelSD
    simp only [loadApply, hd, if_true, ite_true]
    rw [hsd]
    exact strip_wrap_map tr.modelSD
  · by_cases hp : tr.parallel = true <;>
      simp [loadApply, snapshotCkpt, snapshotModelSD, Trainer.modelStateDict, hd, hp]

/-- Claim C4 witness: the round trip at epoch 4 for a distributed trainer
with a one-parameter model. -/
theorem claim_C4_roundtrip_witness :
    (loadApply trD4 (snapshotCkpt trD4 4)).start_epoch = 4 + 1 ∧
    (loadApply trD4 (snapshotCkpt trD4 4)).optimizerState = trD4.optimizerState ∧
    (loadApply trD4 (snapshotCkpt trD4 4)).schedulerState = trD4.schedulerState ∧
    (loadApply trD4 (snapshotCkpt trD4 4)).best_loss = trD4.best_loss ∧
    (loadApply trD4 (snapshotCkpt trD4 4)).best_recall = trD4.best_recall ∧
    (loadApply trD4 (snapshotCkpt trD4 4)).modelSD = trD4.modelSD :=
  claim_C4_roundtrip trD4 4 (by decide)

/-- Claim C6 counterexample: the two checkpoint writes are sequential, with
the latest file written first, so the observer state after the first of the
two writes has `snapshot.pth` already updated while the archival
`model_x.pth` does not exist yet — refuting the claimed atomicity. -/
theorem claim_C6_counterexample :
    lookupFS (applyWrites [] ((snapshotWrites trEx 1 (some "x")).take 1))
        "snapshot.pth" = some (snapshotCkpt trEx 1) ∧
    lookupFS (applyWrites [] ((snapshotWrites trEx 1 (some "x")).take 1))
        "model_x.pth" = none := by
  constructor <;> rfl

/-- Claim C6 amended: every save performs exactly two sequential writes with
identical content — the latest file `snapshot.pth` first, then the archival
`model_<label>.pth` — and after both writes the two files hold the same
checkpoint; the writes are not atomic relative to each other (see the
counterexample). -/
theorem claim_C6_two_writes (tr : Trainer) (e : Nat) (name : Option String)
    (fs : List (String × Checkpoint)) :
    snapshotWrites tr e name
      = [⟨"snapshot.pth", snapshotCkpt tr e⟩,
         ⟨archivalPath e name, snapshotCkpt tr e⟩] ∧
    lookupFS (applyWrites fs (snapshotWrites tr e name)) "snapshot.pth"
      = some (snapshotCkpt tr e) ∧
    lookupFS (applyWrites fs (snapshotWrites tr e name)) (archivalPath e name)
      = some (snapshotCkpt tr e) := by
  refine ⟨rfl, ?_, ?_⟩
  · by_cases h : archivalPath e name = "snapshot.pth"
    · simp [applyWrites, snapshotWrites, writeFS, lookupFS, h]
    · simp [applyWrites, snapshotWrites, writeFS, lookupFS, h, List.filter_cons,
        Ne.symm h]
  · simp [applyWrites, snapshotWrites, writeFS, lookupFS]

/-- Claim C9: when the configured resume path does not exist on disk,
`_load_pretrain` is non-fatal: the condition is reported, no state is
modified — `start_epoch` remains 1, `best_loss` and `best_recall` keep the
fresh `1e5` / `-1e5` values, and model, optimizer and scheduler state are
untouched — and training proceeds from scratch. -/
theorem claim_C9_missing_checkpoint (args : Args) (fs : List (String × Checkpoint))
    (hpre : args.pretrain ≠ "")
    (hmiss : lookupFS fs (args.save_dir ++ "/" ++ args.pretrain) = none) :
    initTrainer args fs = (mkTrainer args, ["no snapshot training from start"]) ∧
    (initTrainer args fs).1.start_epoch = 1 ∧
    (initTrainer args fs).1.best_loss = 100000 ∧
    (initTrainer args fs).1.best_recall = -100000 ∧
    (initTrainer args fs).1.modelSD = args.modelSD ∧
    (initTrainer args fs).1.optimizerState = args.optimizerState ∧
    (initTrainer args fs).1.schedulerState = args.schedulerState := by
  have h1 : initTrainer args fs = (mkTrainer args, ["no snapshot training from start"]) := by
    simp [initTrainer, hpre, loadPretrain]
    have : (mkTrainer args).save_dir = args.save_dir := rfl
    rw [this, hmiss]
  exact ⟨h1, by rw [h1]; rfl, by rw [h1]; rfl, by rw [h1]; rfl, by rw [h1]; rfl,
    by rw [h1]; rfl, by rw [h1]; rfl⟩

/-- Claim C9 witness: resuming from `ck.pth` over an empty file system. -/
theorem claim_C9_missing_checkpoint_witness :
    initTrainer argsPre [] = (mkTrainer argsPre, ["no snapshot training from start"]) ∧
    (initTrainer argsPre []).1.start_epoch = 1 ∧
    (initTrainer argsPre []).1.best_loss = 100000 ∧
    (initTrainer argsPre []).1.best_recall = -100000 ∧
    (initTrainer argsPre []).1.modelSD = argsPre.modelSD ∧
    (initTrainer argsPre []).1.optimizerState = argsPre.optimizerState ∧
    (initTrainer argsPre []).1.schedulerState = argsPre.schedulerState :=
  claim_C9_missing_checkpoint argsPre [] (by decide) rfl

/-- Claim C2: in a train-phase epoch the step decision is invoked exactly at
the zero-based batch indices `c` with `(c+1) mod iter_size == 0`, the
pending gradients are cleared at exactly those indices regardless of the
outcome of the decision, and once more before the loop. -/
theorem claim_C2_step_windows (tr : Trainer) (ep : Nat) (b1 : Batch)
    (rest : List Batch)
    (hiter : 0 < tr.iter_size)
    (hwf : wfLoader (b1 :: rest)) :
    ∃ stats evs,
      inference_one_epoch tr ep Phase.train (b1 :: rest) = Except.ok (stats, 0, evs) ∧
      evs.filterMap decIdx
        = (idxList 0 (b1 :: rest).length).filter (fun i => (i + 1) % tr.iter_size == 0) ∧
      evs.filterMap zeroLoopIdx
        = (idxList 0 (b1 :: rest).length).filter (fun i => (i + 1) % tr.iter_size == 0) ∧
      evs.countP (fun e => isZeroStart e) = 1 := by
  obtain ⟨stats, evs, h1, _, h3, h4, _, _, _, _, h9⟩ :=
    epoch_train_spec tr ep b1 rest (Nat.pos_iff_ne_zero.mp hiter) hwf
  exact ⟨stats, evs, h1, h3, h4, h9⟩

/-- Claim C2 witness: with `iter_size = 2` over 5 batches, the step decision
fires exactly after batches 2 and 4 (indices 1 and 3), the gradients are
cleared at exactly those two indices inside the loop, and once at epoch
start. -/
theorem claim_C2_step_windows_witness :
    0 < trEx.iter_size ∧ wfLoader (bT :: [bT, bT, bT, bT]) ∧
    ∃ stats evs,
      inference_one_epoch trEx 1 Phase.train (bT :: [bT, bT, bT, bT])
        = Except.ok (stats, 0, evs) ∧
      evs.filterMap decIdx = [1, 3] ∧
      evs.filterMap zeroLoopIdx = [1, 3] ∧
      evs.countP (fun e => isZeroStart e) = 1 := by
  refine ⟨by decide, by decide, ?_⟩
  obtain ⟨stats, evs, h1, h2, h3, h4⟩ :=
    claim_C2_step_windows trEx 1 bT [bT, bT, bT, bT] (by decide) (by decide)
  refine ⟨stats, evs, h1, ?_, ?_, h4⟩
  · rw [h2]; decide
  · rw [h3]; decide

/-- Claim C7: the stats meter is created lazily from the key set of the
first batch and that key set is frozen for the epoch: if a later batch
carries a LossInfo key absent from the first batch, no untracked metric is
silently created — the update of that key fails with a KeyError and the
epoch run aborts with that error. -/
theorem claim_C7_frozen_keys (tr : Trainer) (ep : Nat) (b1 : Batch)
    (rest : List Batch) (b : Batch) (k : String)
    (hiter : 0 < tr.iter_size)
    (hb : b ∈ rest)
    (hk : k ∈ keysOf b.lossInfo)
    (hnk : k ∉ dictKeys b1.lossInfo) :
    ∃ k1, inference_one_epoch tr ep Phase.train (b1 :: rest)
        = Except.error (EpochErr.keyErr k1) := by
  have hiter1 : tr.iter_size ≠ 0 := Nat.pos_iff_ne_zero.mp hiter
  rcases processBatch_train_cases tr (b1 :: rest).length ep 0 b1 ⟨none, 0⟩
      (initStats b1.lossInfo) rfl hiter1 with ⟨k1, hk1⟩ | ⟨s1, evs1, hok, hkeys⟩
  · refine ⟨k1, ?_⟩
    simp only [List.length_cons] at hk1
    simp [inference_one_epoch, runBatches, hk1]
  · have hnk1 : k ∉ s1.map Prod.fst := by
      rw [hkeys, initStats_keys]
      exact hnk
    obtain ⟨k1, hk1⟩ :=
      runBatches_fresh_err tr (b1 :: rest).length ep hiter1 rest 1 s1 0 b hb k hk hnk1
    refine ⟨k1, ?_⟩
    simp only [List.length_cons] at hok hk1
    simp [inference_one_epoch, runBatches, hok, hk1]

/-- Claim C7 witness: a second batch that introduces the key `extra` makes
the epoch fail with a KeyError instead of silently tracking a new metric. -/
theorem claim_C7_frozen_keys_witness :
    0 < trEx.iter_size ∧ bT2 ∈ [bT2] ∧ "extra" ∈ keysOf bT2.lossInfo ∧
    "extra" ∉ dictKeys bT.lossInfo ∧
    ∃ k1, inference_one_epoch trEx 1 Phase.train (bT :: [bT2])
        = Except.error (EpochErr.keyErr k1) := by
  refine ⟨by decide, by decide, by decide, by decide, ?_⟩
  exact claim_C7_frozen_keys trEx 1 bT [bT2] bT2 "extra"
    (by decide) (by decide) (by decide) (by decide)

/-- Claim C5: after a val/test epoch the reported registration recall equals
the number of evaluated samples with RMSE strictly below 0.2 — accumulated
across all batches of the epoch — divided by
`total_iterations * batch_size`. -/
theorem claim_C5_recall (tr : Trainer) (ep : Nat) (phase : Phase) (b1 : Batch)
    (rest : List Batch)
    (hphase : phase = Phase.val ∨ phase = Phase.test)
    (hiter : 0 < tr.iter_size)
    (hwf : wfLoader (b1 :: rest))
    (hbs : 0 < tr.batch_size) :
    ∃ stats evs,
      inference_one_epoch tr ep phase (b1 :: rest)
        = Except.ok (stats, sumSucc (b1 :: rest), evs) ∧
      sumSucc (b1 :: rest)
        = ((b1 :: rest).map
            (fun b => (b.rmses.filter (fun r => r < (1 : ℚ) / 5)).length)).sum ∧
      evs.filterMap recallVal
        = [((sumSucc (b1 :: rest) : ℚ))
            / ((((b1 :: rest).length * tr.batch_size : Nat) : ℚ))] := by
  have hph : phase ≠ Phase.train := by rcases hphase with rfl | rfl <;> simp
  obtain ⟨stats, evs, h1, _, h3⟩ :=
    epoch_eval_spec tr ep phase hph b1 rest (Nat.pos_iff_ne_zero.mp hiter) hwf
      (Nat.pos_iff_ne_zero.mp hbs)
  exact ⟨stats, evs, h1, rfl, h3⟩

/-- Claim C5 witness: 4 single-sample batches with RMSE values
0.05, 0.19, 0.21, 0.5 give success count 2 and recall 2 / (4 * 1). -/
theorem claim_C5_recall_witness :
    (Phase.val = Phase.val ∨ Phase.val = Phase.test) ∧ 0 < trEx.iter_size ∧
    wfLoader (bV (1/20) :: [bV (19/100), bV (21/100), bV (1/2)]) ∧
    0 < trEx.batch_size ∧
    sumSucc (bV (1/20) :: [bV (19/100), bV (21/100), bV (1/2)]) = 2 ∧
    ∃ stats evs,
      inference_one_epoch trEx 1 Phase.val
          (bV (1/20) :: [bV (19/100), bV (21/100), bV (1/2)])
        = Except.ok (stats,
            sumSucc (bV (1/20) :: [bV (19/100), bV (21/100), bV (1/2)]), evs) ∧
      sumSucc (bV (1/20) :: [bV (19/100), bV (21/100), bV (1/2)])
        = ((bV (1/20) :: [bV (19/100), bV (21/100), bV (1/2)]).map
            (fun b => (b.rmses.filter (fun r => r < (1 : ℚ) / 5)).length)).sum ∧
      evs.filterMap recallVal
        = [((sumSucc (bV (1/20) :: [bV (19/100), bV (21/100), bV (1/2)]) : ℚ))
            / ((((bV (1/20) :: [bV (19/100), bV (21/100), bV (1/2)]).length
                  * trEx.batch_size : Nat) : ℚ))] := by
  refine ⟨Or.inl rfl, by decide, by decide, by decide,
    by norm_num [sumSucc, succCount, bV, List.filter], ?_⟩
  exact claim_C5_recall trEx 1 Phase.val (bV (1/20))
    [bV (19/100), bV (21/100), bV (1/2)] (Or.inl rfl) (by decide) (by decide) (by decide)

/-- Claim C3: at a train-phase batch where the step decision fires, invalid
gradients (NaN/Inf or all-zero) make the controller skip `optimizer.step`
(no step-applied effect for that index), write a warning line, still clear
the pending gradients, and continue with the next batch without retrying;
the epoch completes without an exception. -/
theorem claim_C3_invalid_gradient (tr : Trainer) (ep : Nat) (b1 : Batch)
    (rest : List Batch) (c : Nat)
    (hiter : 0 < tr.iter_size)
    (hwf : wfLoader (b1 :: rest))
    (hc : c < (b1 :: rest).length)
    (hfire : (c + 1) % tr.iter_size = 0)
    (hinv : validate_gradient ((b1 :: rest).get ⟨c, hc⟩).grads = false) :
    ∃ stats evs,
      inference_one_epoch tr ep Phase.train (b1 :: rest) = Except.ok (stats, 0, evs) ∧
      Ev.stepApplied c ∉ evs ∧
      Ev.warnInvalid c ∈ evs ∧
      Ev.zeroGradLoop c ∈ evs ∧
      evs.filterMap doneIdx = idxList 0 (b1 :: rest).length := by
  obtain ⟨stats, evs, h1, hkeys, hdec, hzero, happ, hwarn, hemit, hdone, hzs⟩ :=
    epoch_train_spec tr ep b1 rest (Nat.pos_iff_ne_zero.mp hiter) hwf
  refine ⟨stats, evs, h1, ?_, ?_, ?_, hdone⟩
  · intro hmem
    have hc2 : c ∈ evs.filterMap appliedIdx :=
      List.mem_filterMap.mpr ⟨Ev.stepApplied c, hmem, rfl⟩
    rw [happ] at hc2
    obtain ⟨p, hp, hpc⟩ := List.mem_filterMap.mp hc2
    by_cases hcond : (p.1 + 1) % tr.iter_size = 0 ∧ validate_gradient p.2.grads = true
    · rw [if_pos hcond] at hpc
      have hp1 : p.1 = c := Option.some.inj hpc
      obtain ⟨j, hj, hpe⟩ := (mem_enumF (b1 :: rest) 0 p).mp hp
      have hjc : j = c := by
        rw [hpe] at hp1
        simpa using hp1
      subst hjc
      have hcontra : validate_gradient ((b1 :: rest).get ⟨j, hc⟩).grads = true := by
        have h2p : p.2 = (b1 :: rest).get ⟨j, hj⟩ := by rw [hpe]
        rw [show (⟨j, hc⟩ : Fin (b1 :: rest).length) = ⟨j, hj⟩ from rfl, ← h2p]
        exact hcond.2
      rw [hinv] at hcontra
      exact Bool.noConfusion hcontra
    · rw [if_neg hcond] at hpc
      exact Option.noConfusion hpc
  · have hc2 : c ∈ evs.filterMap warnIdx := by
      rw [hwarn]
      apply List.mem_filterMap.mpr
      refine ⟨(c, (b1 :: rest).get ⟨c, hc⟩), ?_, ?_⟩
      · apply (mem_enumF (b1 :: rest) 0 _).mpr
        exact ⟨c, hc, by simp⟩
      · rw [if_pos ⟨hfire, hinv⟩]
    obtain ⟨e, he, hei⟩ := List.mem_filterMap.mp hc2
    rw [warnIdx_inv e c hei] at he
    exact he
  · have hc2 : c ∈ evs.filterMap zeroLoopIdx := by
      rw [hzero]
      apply List.mem_filter.mpr
      refine ⟨(mem_idxList _ 0 c).mpr ⟨Nat.zero_le c, by omega⟩, ?_⟩
      simp [hfire]
    obtain ⟨e, he, hei⟩ := List.mem_filterMap.mp hc2
    rw [zeroLoopIdx_inv e c hei] at he
    exact he

/-- Claim C3 witness: the middle batch of three has a NaN gradient; the step
decision at index 1 skips the optimizer step, warns, clears the gradients
and the epoch still completes over all three batches. -/
theorem claim_C3_invalid_gradient_witness :
    0 < trEx.iter_size ∧ wfLoader (bT :: [bNan, bT]) ∧
    (1 + 1) % trEx.iter_size = 0 ∧
    ∃ stats evs,
      inference_one_epoch trEx 1 Phase.train (bT :: [bNan, bT])
        = Except.ok (stats, 0, evs) ∧
      Ev.stepApplied 1 ∉ evs ∧
      Ev.warnInvalid 1 ∈ evs ∧
      Ev.zeroGradLoop 1 ∈ evs ∧
      evs.filterMap doneIdx = idxList 0 (bT :: [bNan, bT]).length := by
  refine ⟨by decide, by decide, by decide, ?_⟩
  exact claim_C3_invalid_gradient trEx 1 bT [bNan, bT] 1 (by decide) (by decide)
    (by decide) (by decide) (by decide)

/-- Claim C8 counterexample: with configured `verbose_freq = 4` and
`batch_size = 2` the trainer emits at batch index 2 over a three-batch
epoch (effective frequency `4 / 2 + 1 = 3`, global step `3*(1-1)+2 = 2`),
although `(2+1) mod 4 ≠ 0` — so emissions are not governed by the
configured `verbose_freq` option itself. -/
theorem claim_C8_counterexample :
    epochEmits (inference_one_epoch trC8 1 Phase.train (bT :: [bT, bT]))
      = [("loss", 2)] ∧
    ¬ ((2 + 1) % argsEx.verbose_freq = 0) := by
  exact ⟨rfl, by decide⟩

/-- Claim C8 amended: in a verbose train-phase epoch, running averages are
emitted exactly at the zero-based indices `c` with
`(c+1) mod verbose_freq == 0`, where `verbose_freq` is the derived value
`args.verbose_freq // args.batch_size + 1` (1 when the experiment directory
contains `overfit`), and each emission is keyed by the global step
`total_iterations * (epoch - 1) + c`. -/
theorem claim_C8_verbose_emissions (args : Args) (ep : Nat) (b1 : Batch)
    (rest : List Batch)
    (hiter : 0 < args.iter_size)
    (hwf : wfLoader (b1 :: rest))
    (hverb : args.verbose = true)
    (_hep : 1 ≤ ep) :
    (mkTrainer args).verbose_freq
      = (if args.exp_dir_overfit then 1 else args.verbose_freq / args.batch_size + 1) ∧
    ∃ stats evs,
      inference_one_epoch (mkTrainer args) ep Phase.train (b1 :: rest)
        = Except.ok (stats, 0, evs) ∧
      evs.filterMap emitPair = flatList
        (fun p => if (p.1 + 1) % (mkTrainer args).verbose_freq = 0 then
            (dictKeys b1.lossInfo).map
              (fun k => (k, (b1 :: rest).length * (ep - 1) + p.1))
          else []) (enumF 0 (b1 :: rest)) := by
  refine ⟨rfl, ?_⟩
  have hiter1 : (mkTrainer args).iter_size ≠ 0 := by
    simp only [mkTrainer]
    omega
  obtain ⟨stats, evs, h1, hkeys, hdec, hzero, happ, hwarn, hemit, hdone, hzs⟩ :=
    epoch_train_spec (mkTrainer args) ep b1 rest hiter1 hwf
  refine ⟨stats, evs, h1, ?_⟩
  rw [hemit]
  congr 1
  funext p
  have hv : (mkTrainer args).verbose = true := hverb
  simp [hv]

/-- Claim C8 amended witness: three batches with the sample configuration
(configured frequency 4, batch size 2, so effective frequency 3). -/
theorem claim_C8_verbose_emissions_witness :
    0 < argsEx.iter_size ∧ wfLoader (bT :: [bT, bT]) ∧ argsEx.verbose = true ∧
    1 ≤ 1 ∧
    ((mkTrainer argsEx).verbose_freq
      = (if argsEx.exp_dir_overfit then 1
         else argsEx.verbose_freq / argsEx.batch_size + 1) ∧
    ∃ stats evs,
      inference_one_epoch (mkTrainer argsEx) 1 Phase.train (bT :: [bT, bT])
        = Except.ok (stats, 0, evs) ∧
      evs.filterMap emitPair = flatList
        (fun p => if (p.1 + 1) % (mkTrainer argsEx).verbose_freq = 0 then
            (dictKeys bT.lossInfo).map
              (fun k => (k, (bT :: [bT, bT]).length * (1 - 1) + p.1))
          else []) (enumF 0 (bT :: [bT, bT]))) := by
  refine ⟨by decide, by decide, by decide, by decide, ?_⟩
  exact claim_C8_verbose_emissions argsEx 1 bT [bT, bT] (by decide) (by decide)
    (by decide) (by decide)

/-- Claim C1: whenever `start_epoch < max_epoch`, `train()` runs exactly one
training epoch — the stored start epoch — then advances the scheduler, saves
a checkpoint exactly when the local rank is the coordination rank 0,
optionally runs one validation epoch, and stops by the explicit `break`
instead of continuing to `max_epoch`: no other epoch is ever run. -/
theorem claim_C1_single_epoch (tr : Trainer) (loaders : Phase → List Batch)
    (b1 : Batch) (rest : List Batch)
    (hload : loaders Phase.train = b1 :: rest)
    (hlt : tr.start_epoch < tr.max_epoch)
    (hiter : 0 < tr.iter_size)
    (hwf : wfLoader (loaders Phase.train))
    (hloss : "loss" ∈ dictKeys b1.lossInfo)
    (hval : tr.do_valid = true → wfLoader (loaders Phase.val) ∧ 0 < tr.batch_size) :
    ∃ v, tr.train loaders
      = Except.ok ([TopEv.ranEpoch tr.start_epoch Phase.train, TopEv.schedStep]
          ++ (if tr.local_rank = 0 then [TopEv.snapshotSaved tr.start_epoch v] else [])
          ++ (if tr.do_valid = true then [TopEv.ranEpoch tr.start_epoch Phase.val]
              else [])) := by
  have hiter1 : tr.iter_size ≠ 0 := Nat.pos_iff_ne_zero.mp hiter
  rw [hload] at hwf
  obtain ⟨stats, evs, hep, hkeys, _⟩ :=
    epoch_train_spec tr tr.start_epoch b1 rest hiter1 hwf
  obtain ⟨m, hm⟩ := findMeter_some stats "loss" (by rw [hkeys]; exact hloss)
  obtain ⟨k, hk⟩ : ∃ k, tr.max_epoch - tr.start_epoch = k + 1 :=
    ⟨tr.max_epoch - tr.start_epoch - 1, by omega⟩
  refine ⟨m.avg, ?_⟩
  unfold Trainer.train
  rw [hk, idxList_succ]
  by_cases hdv : tr.do_valid = true
  · obtain ⟨hwfv, hbs⟩ := hval hdv
    cases hv : loaders Phase.val with
    | nil =>
      rw [hv] at hwfv
      exact (hwfv : False).elim
    | cons bv restv =>
      rw [hv] at hwfv
      obtain ⟨sv, e2, hepv, _, _⟩ :=
        epoch_eval_spec tr tr.start_epoch Phase.val (by simp) bv restv hiter1 hwfv
          (Nat.pos_iff_ne_zero.mp hbs)
      simp [trainLoop, hload, hep, hm, hdv, hv, hepv]
  · simp [trainLoop, hload, hep, hm, hdv]

/-- Claim C1 witness: the sample trainer (start epoch 1, max epoch 5, rank
0, no validation) runs exactly the first epoch and stops. -/
theorem claim_C1_single_epoch_witness :
    (fun _ : Phase => [bT]) Phase.train = bT :: [] ∧
    trEx.start_epoch < trEx.max_epoch ∧ 0 < trEx.iter_size ∧
    wfLoader ((fun _ : Phase => [bT]) Phase.train) ∧
    "loss" ∈ dictKeys bT.lossInfo ∧
    ∃ v, trEx.train (fun _ => [bT])
      = Except.ok ([TopEv.ranEpoch trEx.start_epoch Phase.train, TopEv.schedStep]
          ++ (if trEx.local_rank = 0 then [TopEv.snapshotSaved trEx.start_epoch v]
              else [])
          ++ (if trEx.do_valid = true then [TopEv.ranEpoch trEx.start_epoch Phase.val]
              else [])) := by
  refine ⟨rfl, by decide, by decide, by decide, by decide, ?_⟩
  exact claim_C1_single_epoch trEx (fun _ => [bT]) bT [] rfl (by decide) (by decide)
    (by decide) (by decide) (fun h => absurd h (by decide))
